import Mathlib

/-!
Shallow embedding of the Pythagorean chord tool core (tuning engine,
chord-sequence text parsing, and MIDI encoding) together with theorems
settling the specification claims about it.

Modelling conventions:
* JavaScript numbers are idealised as exact rationals (`ℚ`) for the
  discrete arithmetic (ratios, semitone counts, tick computations) and as
  real numbers (`ℝ`) where the source computes with `Math.log2` /
  `Math.pow`.  `NaN` and the infinities are modelled explicitly where the
  source can produce them (`JFloat`, `Option` results).
* JavaScript string primitives (`trim`, `split`, `toLowerCase`,
  `startsWith`) are modelled by the corresponding Lean `String`
  operations; the regular expressions used by the source are modelled by
  hand-rolled matchers over `List Char` following the exact grammar of
  each pattern, with JS first-match (leftmost) search semantics.
* Object-literal tables are modelled as association lists looked up by
  string equality (prototype-chain lookups are out of scope).
-/

deriving instance DecidableEq for Except

/-! ## Basic character and digit helpers -/

/-- The whitespace class used to model JavaScript `\s`, `trim()` and the
whitespace skipping of `parseFloat` (restricted to the ASCII whitespace
characters, which are the only ones the tool's inputs contain). -/
def isJsSpace (c : Char) : Bool := c.isWhitespace

/-- JavaScript `String.prototype.trim()` over a character list. -/
def jsTrimList (l : List Char) : List Char :=
  ((l.dropWhile isJsSpace).reverse.dropWhile isJsSpace).reverse

/-- JavaScript `s.trim()`. -/
def jsTrim (s : String) : String := String.mk (jsTrimList s.toList)

def digitVal (c : Char) : ℕ := c.toNat - 48

def digitsToNat (l : List Char) : ℕ := l.foldl (fun a c => 10 * a + digitVal c) 0

/-- `\d+` : a non-empty run of decimal digits, with its `parseInt` value. -/
def parseDigits (l : List Char) : Option ℕ :=
  if !l.isEmpty && l.all Char.isDigit then some (digitsToNat l) else none

/-- `-?\d+` with its `parseInt` value. -/
def parseSignedInt (l : List Char) : Option ℤ :=
  match l with
  | '-' :: ds => (parseDigits ds).map (fun n => -(n : ℤ))
  | ds => (parseDigits ds).map (fun n => (n : ℤ))

/-- Association-list lookup by string key, modelling `obj[key]` own-property
access on the object-literal tables of the source. -/
def tableLookup {α : Type} (l : List (String × α)) (s : String) : Option α :=
  (l.find? (fun p => p.1 == s)).map Prod.snd

/-! ## Tuning engine (src tuning module, `PythagoreanTuning`) -/

/-- Errors thrown by the tuning engine, one constructor per `throw` site,
carrying the data interpolated into the message. -/
inductive TuneError where
  | invalidNoteFormat (note : String)
  | invalidNoteName (name : String)
  | invalidInterval (interval : String)
  | unknownInterval (interval : String)
  | unknownCompoundInterval (interval : String) (derived : String)
  | unknownETInterval (interval : String)
  | invalidFundamental (fundamental : String)
deriving DecidableEq, Repr

/-- `PythagoreanTuning.intervals`: the base Pythagorean ratio table. -/
def pythIntervals : List (String × ℚ) :=
  [("1", 1/1), ("b2", 256/243), ("2", 9/8), ("b3", 32/27), ("3", 81/64),
   ("4", 4/3), ("#4", 729/512), ("b5", 729/512), ("5", 3/2), ("b6", 128/81),
   ("6", 27/16), ("b7", 16/9), ("7", 243/128), ("8", 2/1)]

/-- `PythagoreanTuning.noteToSemitone`: note names to semitone offsets from A. -/
def noteToSemitone : List (String × ℤ) :=
  [("C", -9), ("C#", -8), ("Db", -8), ("D", -7), ("D#", -6), ("Eb", -6),
   ("E", -5), ("F", -4), ("F#", -3), ("Gb", -3), ("G", -2), ("G#", -1),
   ("Ab", -1), ("A", 0), ("A#", 1), ("Bb", 1), ("B", 2)]

/-- The regex `^([#b]?)(\d+)$` of `getIntervalRatio` /
`calculateEqualTemperament`: an optional accidental and a degree.
(No backtracking subtlety: `#`/`b` are not digits.) -/
def matchIntervalRegex (s : String) : Option (String × ℕ) :=
  match s.toList with
  | [] => none
  | c :: cs =>
    if c = '#' ∨ c = 'b' then (parseDigits cs).map (fun n => (String.mk [c], n))
    else (parseDigits (c :: cs)).map (fun n => ("", n))

/-- `PythagoreanTuning.getIntervalRatio`. -/
def getIntervalRatio (interval : String) : Except TuneError ℚ :=
  let t := jsTrim interval
  match tableLookup pythIntervals t with
  | some r => .ok r
  | none =>
    match matchIntervalRegex t with
    | none => .error (.invalidInterval t)
    | some (accidental, number) =>
      if number ≤ 8 then .error (.unknownInterval t)
      else
        let octaves := (number - 1) / 7
        let simpleInterval := accidental ++ toString (((number - 1) % 7) + 1)
        match tableLookup pythIntervals simpleInterval with
        | none => .error (.unknownCompoundInterval t simpleInterval)
        | some r => .ok (r * 2 ^ octaves)

/-- The semitone table local to `calculateEqualTemperament`. -/
def intervalToSemitones : List (String × ℤ) :=
  [("1", 0), ("b2", 1), ("2", 2), ("b3", 3), ("3", 4), ("4", 5),
   ("#4", 6), ("b5", 6), ("5", 7), ("b6", 8), ("6", 9), ("b7", 10),
   ("7", 11), ("8", 12)]

/-- The semitone count computed by `PythagoreanTuning.calculateEqualTemperament`
before the final `fundamental * 2^(semitones/12)`.  `Except.error` models a
thrown exception; `Except.ok none` models the silent `NaN` that arises in the
compound branch when `intervalToSemitones[simpleInterval]` is `undefined`
(`undefined + octaves * 12` evaluates to `NaN` in JavaScript, and no error is
thrown there). -/
def calculateEqualTemperamentSem (interval : String) : Except TuneError (Option ℤ) :=
  match matchIntervalRegex interval with
  | none => .error (.invalidInterval interval)
  | some (accidental, number) =>
    if number ≤ 8 then
      match tableLookup intervalToSemitones interval with
      | none => .error (.unknownETInterval interval)
      | some s => .ok (some s)
    else
      let octaves := (number - 1) / 7
      let simpleInterval := accidental ++ toString (((number - 1) % 7) + 1)
      .ok ((tableLookup intervalToSemitones simpleInterval).map
            (fun s => s + (octaves : ℤ) * 12))

/-- `PythagoreanTuning.calculateEqualTemperament` itself: the returned
frequency, with `none` for a `NaN` result. -/
noncomputable def calculateEqualTemperament (fundamental : ℝ) (interval : String) :
    Except TuneError (Option ℝ) :=
  (calculateEqualTemperamentSem interval).map
    (Option.map (fun s : ℤ => fundamental * (2 : ℝ) ^ ((s : ℝ) / 12)))

/-- The regex `^([A-G][#b]?)(-?\d+)$` of `noteToFrequency`, returning the
note-name group and the octave. -/
def matchNoteRegex (s : String) : Option (String × ℤ) :=
  match s.toList with
  | [] => none
  | c :: rest =>
    if 'A' ≤ c ∧ c ≤ 'G' then
      match rest with
      | [] => none
      | c2 :: rest2 =>
        if c2 = '#' ∨ c2 = 'b' then
          (parseSignedInt rest2).map (fun k => (String.mk [c, c2], k))
        else
          (parseSignedInt (c2 :: rest2)).map (fun k => (String.mk [c], k))
    else none

/-- The semitone offset from A4 computed inside
`PythagoreanTuning.noteToFrequency` (the frequency is then
`440 * 2^(totalSemitones/12)`). -/
def noteTotalSemitones (note : String) : Except TuneError ℤ :=
  match matchNoteRegex note with
  | none => .error (.invalidNoteFormat note)
  | some (noteName, octave) =>
    match tableLookup noteToSemitone noteName with
    | none => .error (.invalidNoteName noteName)
    | some semitoneOffset => .ok (semitoneOffset + (octave - 4) * 12)

/-- `PythagoreanTuning.noteToFrequency`. -/
noncomputable def noteToFrequency (note : String) : Except TuneError ℝ :=
  (noteTotalSemitones note).map (fun t => 440 * (2 : ℝ) ^ ((t : ℝ) / 12))

/-! ## JavaScript `parseFloat` -/

/-- A JavaScript number as produced by `parseFloat`: `NaN`, an infinity, or a
finite value (idealised as an exact rational). -/
inductive JFloat where
  | nan
  | posInf
  | negInf
  | num (q : ℚ)
deriving DecidableEq, Repr

/-- The exponent value of an optional trailing `ExponentPart`
(`e`/`E`, optional sign, digits); `0` when absent or incomplete
(`parseFloat` stops before an incomplete exponent). -/
def jsParseFloatExponent (l : List Char) : ℤ :=
  match l with
  | 'e' :: t | 'E' :: t =>
    match t with
    | '-' :: ds =>
      match parseDigits (ds.takeWhile Char.isDigit) with
      | some n => -(n : ℤ)
      | none => 0
    | '+' :: ds =>
      match parseDigits (ds.takeWhile Char.isDigit) with
      | some n => (n : ℤ)
      | none => 0
    | ds =>
      match parseDigits (ds.takeWhile Char.isDigit) with
      | some n => (n : ℤ)
      | none => 0
  | _ => 0

/-- JavaScript `parseFloat(s)`: skip leading whitespace, then parse the
longest prefix matching `[+-]?(Infinity | digits(.digits?)? | .digits)`
with an optional exponent part; `NaN` when no such prefix exists. -/
def jsParseFloat (s : String) : JFloat :=
  let l := s.toList.dropWhile isJsSpace
  let neg : Bool := match l with | '-' :: _ => true | _ => false
  let l2 : List Char := match l with | '-' :: r => r | '+' :: r => r | _ => l
  if "Infinity".toList.isPrefixOf l2 then (if neg then .negInf else .posInf)
  else
    let ds1 := l2.takeWhile Char.isDigit
    let r1 := l2.dropWhile Char.isDigit
    match r1 with
    | '.' :: rest =>
      let ds2 := rest.takeWhile Char.isDigit
      if ds1.isEmpty && ds2.isEmpty then .nan
      else
        let mant : ℚ := (digitsToNat ds1 : ℚ) + (digitsToNat ds2 : ℚ) / 10 ^ ds2.length
        .num ((if neg then -1 else 1) * mant *
              10 ^ jsParseFloatExponent (rest.dropWhile Char.isDigit))
    | _ =>
      if ds1.isEmpty then .nan
      else
        .num ((if neg then -1 else 1) * (digitsToNat ds1 : ℚ) *
              10 ^ jsParseFloatExponent r1)

/-! ## `PythagoreanTuning.calculateChord` -/

/-- One entry of the `notes` array built by `calculateChord`.  Frequencies
live in `EReal` because a fundamental parsed from `"Infinity"` /
`"-Infinity"` is an infinity in JavaScript. -/
structure ChordNote where
  interval : String
  frequency : EReal
  ratio : ℚ

/-- The object returned by `calculateChord`. -/
structure ChordResult where
  fundamental : EReal
  notes : List ChordNote

/-- The fundamental-resolution step of `calculateChord` for a string
fundamental: try `noteToFrequency`, on a thrown error fall back to
`parseFloat`, and throw `Invalid fundamental` exactly when the latter
gives `NaN`. -/
noncomputable def resolveFundamental (fundamental : String) : Except TuneError EReal :=
  match noteTotalSemitones fundamental with
  | .ok t => .ok ((440 * (2 : ℝ) ^ ((t : ℝ) / 12) : ℝ) : EReal)
  | .error _ =>
    match jsParseFloat fundamental with
    | .nan => .error (.invalidFundamental fundamental)
    | .posInf => .ok ⊤
    | .negInf => .ok ⊥
    | .num q => .ok ((q : ℝ) : EReal)

/-- `PythagoreanTuning.calculateFrequency`. -/
noncomputable def calculateFrequency (fundamental : EReal) (interval : String) :
    Except TuneError EReal :=
  (getIntervalRatio interval).map (fun r => fundamental * ((r : ℝ) : EReal))

/-- The `intervals.map(...)` of `calculateChord`: each interval yields
`{interval, frequency: calculateFrequency(f, i), ratio: getIntervalRatio(i)}`,
the first thrown error aborting the whole map. -/
noncomputable def mapChordNotes (fund : EReal) : List String → Except TuneError (List ChordNote)
  | [] => .ok []
  | interval :: rest =>
    match calculateFrequency fund interval with
    | .error e => .error e
    | .ok freq =>
      match getIntervalRatio interval with
      | .error e => .error e
      | .ok r =>
        (mapChordNotes fund rest).map
          (fun notes => { interval := interval, frequency := freq, ratio := r } :: notes)

/-- `PythagoreanTuning.calculateChord` with a string fundamental. -/
noncomputable def calculateChord (fundamental : String) (intervals : List String) :
    Except TuneError ChordResult :=
  match resolveFundamental fundamental with
  | .error e => .error e
  | .ok fundamentalFreq =>
    match mapChordNotes fundamentalFreq intervals with
    | .error e => .error e
    | .ok notes => .ok { fundamental := fundamentalFreq, notes := notes }

/-- Following the spec's words, for comparison with the code: "a
**Frequency** (positive real number in Hz) taken literally" — the literal
numeric reading of a fundamental accepted by the spec's data model. -/
def specLiteralFrequency (s : String) : Option ℚ :=
  match jsParseFloat s with
  | .num q => if 0 < q then some q else none
  | _ => none

/-! ## Sequence parser (src/js/parser.js) -/

/-- Errors thrown by `parseChordLine`, one constructor per `throw` site. -/
inductive LineError where
  | missingColon
  | invalidDurationFormat (part : String)
  | invalidDurationValue (value : String)
  | noIntervals (fundamental : String)
deriving DecidableEq, Repr

/-- Errors thrown by `parseChordSequence`: a line error tagged with its
1-based line number, or no chords at all. -/
inductive SeqError where
  | atLine (lineNumber : ℕ) (e : LineError)
  | noChords
deriving DecidableEq, Repr

/-- A parsed chord record. -/
structure ParsedChord where
  fundamental : String
  intervals : List String
  duration : ℚ
deriving DecidableEq, Repr

/-- JavaScript `s.startsWith(pat)`. -/
def strStartsWith (s pat : String) : Bool := pat.toList.isPrefixOf s.toList

/-- JavaScript `s.toLowerCase()` (ASCII). -/
def jsToLower (s : String) : String := String.mk (s.toList.map Char.toLower)

/-- JavaScript `s.split(sep)` for a single-character separator. -/
def splitOnChar (sep : Char) : List Char → List (List Char)
  | [] => [[]]
  | c :: cs =>
    let r := splitOnChar sep cs
    if c = sep then [] :: r
    else match r with
      | [] => [[c]]
      | h :: t => (c :: h) :: t

/-- `line.indexOf(':')` plus the two `substring` calls: the text before and
after the first colon, or `none` if there is no colon. -/
def splitAtColonList : List Char → Option (List Char × List Char)
  | [] => none
  | c :: cs =>
    if c = ':' then some ([], cs)
    else (splitAtColonList cs).map (fun p => (c :: p.1, p.2))

def splitAtColon (s : String) : Option (String × String) :=
  (splitAtColonList s.toList).map (fun p => (String.mk p.1, String.mk p.2))

/-- `part.toLowerCase().startsWith('duration')`. -/
def isDurationPart (p : String) : Bool :=
  strStartsWith (jsToLower p) "duration"

def isNumDotChar (c : Char) : Bool := c.isDigit || c = '.'

/-- A match attempt of the regex `/duration\s*=\s*([0-9.]+)/i` anchored at
the start of `l`, returning the captured `[0-9.]+` group. -/
def matchDurationAt (l : List Char) : Option (List Char) :=
  match l with
  | d :: u :: r :: a :: t :: i :: o :: n :: rest =>
    if (String.mk [d, u, r, a, t, i, o, n]).toList.map Char.toLower = "duration".toList then
      let r1 := rest.dropWhile isJsSpace
      match r1 with
      | '=' :: r2 =>
        let r3 := r2.dropWhile isJsSpace
        let ds := r3.takeWhile isNumDotChar
        if ds.isEmpty then none else some ds
      | _ => none
    else none
  | _ => none

/-- JavaScript regex search semantics for `/duration\s*=\s*([0-9.]+)/i`:
the leftmost successful match attempt wins. -/
def searchDuration : List Char → Option (List Char)
  | [] => none
  | c :: t =>
    match matchDurationAt (c :: t) with
    | some ds => some ds
    | none => searchDuration t

/-- JavaScript `parseFloat` restricted to a non-empty string of digits and
dots, as captured by `([0-9.]+)`: the longest valid decimal prefix, `none`
for `NaN` (e.g. on `"."` or `".."`). -/
def parseFloatDigitsDots (l : List Char) : Option ℚ :=
  let ds1 := l.takeWhile Char.isDigit
  let r1 := l.dropWhile Char.isDigit
  match r1 with
  | '.' :: r2 =>
    let ds2 := r2.takeWhile Char.isDigit
    if ds1.isEmpty && ds2.isEmpty then none
    else some ((digitsToNat ds1 : ℚ) + (digitsToNat ds2 : ℚ) / 10 ^ ds2.length)
  | _ => if ds1.isEmpty then none else some ((digitsToNat ds1 : ℚ))

/-- The `for (const part of parts)` loop of `parseChordLine`, accumulating
intervals and the current duration, throwing on a bad duration part. -/
def processParts : List String → List String → ℚ → Except LineError (List String × ℚ)
  | [], intervals, duration => .ok (intervals, duration)
  | part :: rest, intervals, duration =>
    if isDurationPart part then
      match searchDuration part.toList with
      | none => .error (.invalidDurationFormat part)
      | some ds =>
        match parseFloatDigitsDots ds with
        | none => .error (.invalidDurationValue (String.mk ds))
        | some v =>
          if v ≤ 0 then .error (.invalidDurationValue (String.mk ds))
          else processParts rest intervals v
    else if part = "" then processParts rest intervals duration
    else processParts rest (intervals ++ [part]) duration

/-- `Parser.parseChordLine`: `Except.ok none` for a blank or comment line. -/
def parseChordLine (line : String) : Except LineError (Option ParsedChord) :=
  let t := jsTrim line
  if t == "" || strStartsWith t "#" || strStartsWith t "//" then .ok none
  else
    match splitAtColon t with
    | none => .error .missingColon
    | some (beforeColon, afterColon) =>
      let fundamental := jsTrim beforeColon
      let remainder := jsTrim afterColon
      let parts := (splitOnChar ',' remainder.toList).map (fun l => jsTrim (String.mk l))
      match processParts parts [] 1 with
      | .error e => .error e
      | .ok (intervals, duration) =>
        if intervals = [] then .error (.noIntervals fundamental)
        else .ok (some ⟨fundamental, intervals, duration⟩)

/-- `input.split('\n')`. -/
def jsSplitLines (input : String) : List String :=
  (splitOnChar '\n' input.toList).map String.mk

/-- The indexed loop of `parseChordSequence`: parse each line, rethrowing a
line error tagged with its 1-based number, collecting the chords. -/
def parseLinesFrom : List String → ℕ → Except SeqError (List ParsedChord)
  | [], _ => .ok []
  | l :: ls, n =>
    match parseChordLine l with
    | .error e => .error (.atLine n e)
    | .ok none => parseLinesFrom ls (n + 1)
    | .ok (some c) => (parseLinesFrom ls (n + 1)).map (fun cs => c :: cs)

/-- `Parser.parseChordSequence`. -/
def parseChordSequence (input : String) : Except SeqError (List ParsedChord) :=
  match parseLinesFrom (jsSplitLines input) 1 with
  | .error e => .error e
  | .ok chords => if chords = [] then .error .noChords else .ok chords

/-! ## MIDI encoder (src MIDI module, `MIDIExporter`) -/

/-- A track event: a delta time and raw data bytes.  Data entries are kept
as unms as produced by the source (`ℤ`); they are reduced mod 256 only when
the track is serialised into a `Uint8Array`, as in JavaScript. -/
structure MIDIEvent where
  deltaTime : ℤ
  data : List ℤ
deriving DecidableEq, Repr

/-- `this.ppq`: pulses per quarter note. -/
def ppq : ℕ := 480

/-- JavaScript `ToInt32` (the coercion applied by `>>` and `&`). -/
def toInt32 (z : ℤ) : ℤ := (z + 2 ^ 31) % 2 ^ 32 - 2 ^ 31

/-- The `while (value > 0)` loop of `writeVarLength`, returning the
continuation-bit bytes most-significant-first (i.e. already reversed). -/
def vlqHigh (v : ℤ) : List ℤ :=
  if 0 < v then vlqHigh (v / 128) ++ [v % 128 + 128] else []
termination_by v.toNat
decreasing_by
  simp_wf
  omega

/-- `MIDIExporter.writeVarLength`: variable-length-quantity encoding,
most-significant group first, continuation bit on all but the last byte.
(The JavaScript `&`/`>>=` operators coerce through `ToInt32`.) -/
def writeVarLength (value : ℤ) : List ℤ :=
  let w := toInt32 value
  vlqHigh (w / 128) ++ [w % 128]

/-- `MIDIExporter.encodeTrackEvents` followed by the `new Uint8Array(bytes)`
conversion (which reduces each entry mod 256). -/
def encodeTrackEvents (events : List MIDIEvent) : List ℕ :=
  ((events.map (fun e => writeVarLength e.deltaTime ++ e.data)).flatten).map
    (fun z => (z % 256).toNat)

/-- Big-endian 4-byte value, as written by `DataView.setUint32`. -/
def uint32BE (n : ℕ) : List ℕ :=
  [n / 2 ^ 24 % 256, n / 2 ^ 16 % 256, n / 2 ^ 8 % 256, n % 256]

/-- `MIDIExporter.createHeaderChunk`. -/
def createHeaderChunk (numTracks : ℕ) : List ℕ :=
  [0x4D, 0x54, 0x68, 0x64, 0, 0, 0, 6, 0, 1,
   numTracks / 256 % 256, numTracks % 256, ppq / 256 % 256, ppq % 256]

/-- `MIDIExporter.createTrackChunk`. -/
def createTrackChunk (events : List MIDIEvent) : List ℕ :=
  let trackData := encodeTrackEvents events
  [0x4D, 0x54, 0x72, 0x6B] ++ uint32BE trackData.length ++ trackData

/-- `MIDIExporter.createMIDIFile`. -/
def createMIDIFile (tracks : List (List MIDIEvent)) : List ℕ :=
  createHeaderChunk tracks.length ++ (tracks.map createTrackChunk).flatten

/-- `Math.round(60000000 / tempo)`. -/
def microsecondsPerBeat (tempo : ℚ) : ℤ := round ((60000000 : ℚ) / tempo)

/-- The tempo meta-event of track 0 (`FF 51 03` + three bytes extracted
with `>> 16 & 0xFF`, `>> 8 & 0xFF`, `& 0xFF`). -/
def tempoMetaEvent (tempo : ℚ) : MIDIEvent :=
  let w := toInt32 (microsecondsPerBeat tempo)
  ⟨0, [0xFF, 0x51, 0x03, w / 65536 % 256, w / 256 % 256, w % 256]⟩

/-- The end-of-track meta-event. -/
def endOfTrackEvent : MIDIEvent := ⟨0, [0xFF, 0x2F, 0x00]⟩

/-- Track 0 as built by both `generate*MIDI` functions. -/
def tempoTrack (tempo : ℚ) : List MIDIEvent := [tempoMetaEvent tempo, endOfTrackEvent]

/-- One element of the `chordSequence` argument of `generatePythagoreanMIDI`:
the Pythagorean note frequencies and the duration multiplier. -/
structure MidiChordInput where
  pythagoreanNotes : List ℝ
  duration : ℚ

/-- `ticksPerSecond = (this.ppq * tempo) / 60`. -/
def ticksPerSecond (tempo : ℚ) : ℚ := (ppq : ℚ) * tempo / 60

/-- `durationTicks = Math.round(chord.duration * baseDuration * ticksPerSecond)`. -/
def chordDurationTicks (c : MidiChordInput) (baseDuration tempo : ℚ) : ℤ :=
  round (c.duration * baseDuration * ticksPerSecond tempo)

/-- `MIDIExporter.frequencyToMIDI`: the rounded MIDI note number and the
cents deviation from it. -/
noncomputable def frequencyToMIDI (frequency : ℝ) : ℤ × ℝ :=
  let midiFloat := 69 + 12 * Real.logb 2 (frequency / 440)
  let midiNote := round midiFloat
  (midiNote, (midiFloat - (midiNote : ℝ)) * 100)

/-- `MIDIExporter.centsToPitchBend`. -/
noncomputable def centsToPitchBend (cents : ℝ) : ℤ :=
  max 0 (min 16383 (round ((8192 : ℝ) + cents / 200 * 8192)))

/-- The events pushed for one note inside the note-on loop of
`generatePythagoreanMIDI`: an optional pitch-bend (emitted only when
`Math.abs(cents) > 0.5`) followed by the note-on, every delta time 0
(the source's `chordIndex === 0 && noteIndex === 0 ? 0 : 0` is 0 in both
branches). -/
noncomputable def pythNoteOnEvents (noteIndex : ℕ) (frequency : ℝ) : List MIDIEvent :=
  let nc := frequencyToMIDI frequency
  let channel : ℤ := (min noteIndex 15 : ℕ)
  let pitchBend := centsToPitchBend nc.2
  (if 0.5 < |nc.2| then
    [⟨0, [0xE0 + channel, pitchBend % 128, pitchBend / 128 % 128]⟩]
   else [])
  ++ [⟨0, [0x90 + channel, nc.1, 80]⟩]

/-- The note-off event pushed for one note: the first note-off of a chord
carries the chord's duration in ticks, the others delta time 0. -/
noncomputable def pythNoteOffEvent (noteIndex : ℕ) (frequency : ℝ)
    (durationTicks : ℤ) : MIDIEvent :=
  ⟨if noteIndex = 0 then durationTicks else 0,
   [0x80 + ((min noteIndex 15 : ℕ) : ℤ), (frequencyToMIDI frequency).1, 0]⟩

/-- All events pushed for one chord: the note-on loop then the note-off loop. -/
noncomputable def pythChordEvents (c : MidiChordInput) (durationTicks : ℤ) :
    List MIDIEvent :=
  (c.pythagoreanNotes.enum.map (fun p => pythNoteOnEvents p.1 p.2)).flatten
  ++ c.pythagoreanNotes.enum.map (fun p => pythNoteOffEvent p.1 p.2 durationTicks)

/-- Track 1 of `generatePythagoreanMIDI`. -/
noncomputable def pythNoteTrack (chordSequence : List MidiChordInput)
    (baseDuration tempo : ℚ) : List MIDIEvent :=
  (chordSequence.map
    (fun c => pythChordEvents c (chordDurationTicks c baseDuration tempo))).flatten
  ++ [endOfTrackEvent]

/-- `MIDIExporter.generatePythagoreanMIDI`. -/
noncomputable def generatePythagoreanMIDI (chordSequence : List MidiChordInput)
    (baseDuration tempo : ℚ) : List ℕ :=
  createMIDIFile [tempoTrack tempo, pythNoteTrack chordSequence baseDuration tempo]

/-! ## Helper evaluation lemmas -/

theorem natToString_one : toString (1 : ℕ) = "1" := by decide

theorem natToString_two : toString (2 : ℕ) = "2" := by decide

theorem natToString_three : toString (3 : ℕ) = "3" := by decide

theorem natToString_four : toString (4 : ℕ) = "4" := by decide

theorem natToString_five : toString (5 : ℕ) = "5" := by decide

theorem natToString_six : toString (6 : ℕ) = "6" := by decide

theorem natToString_seven : toString (7 : ℕ) = "7" := by decide

/-! ## C9: the base interval table -/

/-- **C9 (corrected)** — the base table has 14 interval symbols, not 13:
its key list has length 14. -/
theorem C9_counterexample : ¬ (pythIntervals.map Prod.fst).length = 13 := by decide

/-- **C9 (amended)** — for every one of the 14 base interval symbols,
`getIntervalRatio` returns the exact tabulated Pythagorean ratio, and the
symbols `#4` and `b5` both map to the same ratio `729/512`. -/
theorem C9_base_ratio_table :
    getIntervalRatio "1" = .ok (1/1) ∧
    getIntervalRatio "b2" = .ok (256/243) ∧
    getIntervalRatio "2" = .ok (9/8) ∧
    getIntervalRatio "b3" = .ok (32/27) ∧
    getIntervalRatio "3" = .ok (81/64) ∧
    getIntervalRatio "4" = .ok (4/3) ∧
    getIntervalRatio "#4" = .ok (729/512) ∧
    getIntervalRatio "b5" = .ok (729/512) ∧
    getIntervalRatio "5" = .ok (3/2) ∧
    getIntervalRatio "b6" = .ok (128/81) ∧
    getIntervalRatio "6" = .ok (27/16) ∧
    getIntervalRatio "b7" = .ok (16/9) ∧
    getIntervalRatio "7" = .ok (243/128) ∧
    getIntervalRatio "8" = .ok (2/1) ∧
    (pythIntervals.map Prod.fst).length = 14 := by
  refine ⟨?_, ?_, ?_, ?_, ?_, ?_, ?_, ?_, ?_, ?_, ?_, ?_, ?_, ?_, ?_⟩ <;>
    simp [getIntervalRatio, tableLookup, pythIntervals, jsTrim, jsTrimList, isJsSpace]

/-! ## C1: equal-temperament comparison path -/

/-- **C1 (code bug)** — on the compound interval `"#9"`, whose derived base
interval `"#2"` is not in the table, `getIntervalRatio` throws, but
`calculateEqualTemperament` does *not* throw: its `degree > 8` branch has no
`undefined` check, so `intervalToSemitones["#2"] + 12` is `NaN` and a `NaN`
frequency is returned silently, contradicting the claim that it fails on
exactly the symbols `getIntervalRatio` fails on. -/
theorem C1_et_nan_on_unknown_compound :
    getIntervalRatio "#9" = .error (.unknownCompoundInterval "#9" "#2") ∧
    calculateEqualTemperamentSem "#9" = .ok none ∧
    ∀ fundamental : ℝ, calculateEqualTemperament fundamental "#9" = .ok none := by
  refine ⟨?_, ?_, ?_⟩
  · simp [getIntervalRatio, tableLookup, pythIntervals, jsTrim, jsTrimList, isJsSpace,
      matchIntervalRegex, parseDigits, digitsToNat, digitVal, natToString_two]
  · simp [calculateEqualTemperamentSem, tableLookup, intervalToSemitones,
      matchIntervalRegex, parseDigits, digitsToNat, digitVal, natToString_two]
  · intro fundamental
    simp [calculateEqualTemperament, calculateEqualTemperamentSem, tableLookup,
      intervalToSemitones, matchIntervalRegex, parseDigits, digitsToNat, digitVal,
      natToString_two, Except.map]

/-! ## C4: compound intervals -/

/-- Every key of the base ratio table parses to a degree of at most 8. -/
theorem pyth_keys_degree_le8 :
    pythIntervals.all
      (fun q => ((matchIntervalRegex q.1).map (fun p => decide (p.2 ≤ 8))).getD true)
      = true := by decide

/-- The accidental group captured by `^([#b]?)(\d+)$` is `""`, `"#"` or `"b"`. -/
theorem matchIntervalRegex_accidental (s a : String) (d : ℕ)
    (hm : matchIntervalRegex s = some (a, d)) : a = "" ∨ a = "#" ∨ a = "b" := by
  rcases hsl : s.toList with _ | ⟨c, cs⟩
  · simp only [matchIntervalRegex, hsl] at hm
    exact Option.noConfusion hm
  · simp only [matchIntervalRegex, hsl] at hm
    split_ifs at hm with hc
    · rcases Option.map_eq_some'.mp hm with ⟨n, _, hpair⟩
      rcases hc with rfl | rfl
      · right; left
        have := congrArg Prod.fst hpair
        simpa using this.symm
      · right; right
        have := congrArg Prod.fst hpair
        simpa using this.symm
    · left
      rcases Option.map_eq_some'.mp hm with ⟨n, _, hpair⟩
      have := congrArg Prod.fst hpair
      simpa using this.symm

/-- Unfolding of `getIntervalRatio` on a trimmed symbol whose degree
exceeds 8 (so the direct table hit is impossible): the compound branch. -/
theorem getIntervalRatio_compound (s accidental : String) (d : ℕ)
    (htrim : jsTrim s = s) (hm : matchIntervalRegex s = some (accidental, d))
    (hd : 8 < d) :
    getIntervalRatio s =
      match tableLookup pythIntervals (accidental ++ toString (((d - 1) % 7) + 1)) with
      | none => .error (.unknownCompoundInterval s
            (accidental ++ toString (((d - 1) % 7) + 1)))
      | some r => .ok (r * 2 ^ ((d - 1) / 7)) := by
  cases hlook : tableLookup pythIntervals s with
  | some r =>
    exfalso
    have hfind : ∃ q, List.find? (fun p => p.1 == s) pythIntervals = some q := by
      unfold tableLookup at hlook
      cases hf : List.find? (fun p => p.1 == s) pythIntervals with
      | none => rw [hf] at hlook; simp at hlook
      | some q => exact ⟨q, rfl⟩
    obtain ⟨q, hfind⟩ := hfind
    have hqmem := List.mem_of_find?_eq_some hfind
    have hqs : q.1 = s := by simpa using List.find?_some hfind
    have hall := List.all_eq_true.mp pyth_keys_degree_le8 q hqmem
    rw [hqs, hm] at hall
    simp at hall
    omega
  | none =>
    simp only [getIntervalRatio, htrim, hlook, hm]
    rw [if_neg (by omega : ¬ d ≤ 8)]

/-- Unfolding of `getIntervalRatio` on a trimmed symbol whose degree is at
most 8: a direct table hit or the `Unknown interval` error. -/
theorem getIntervalRatio_simple (t : String) (htrim : jsTrim t = t)
    (hm : ((matchIntervalRegex t).map (fun p => decide (p.2 ≤ 8))).getD false = true) :
    getIntervalRatio t =
      match tableLookup pythIntervals t with
      | some r => .ok r
      | none => .error (.unknownInterval t) := by
  cases hlook : tableLookup pythIntervals t with
  | some r => simp only [getIntervalRatio, htrim, hlook]
  | none =>
    cases hmm : matchIntervalRegex t with
    | none => rw [hmm] at hm; simp at hm
    | some p =>
      rw [hmm] at hm
      simp at hm
      simp only [getIntervalRatio, htrim, hlook, hmm]
      rw [if_pos hm]

/-- **C4 (confirmed)** — for every trimmed interval symbol parsing as an
accidental `a ∈ {"", "#", "b"}` and a degree `d > 8`, `getIntervalRatio`
agrees (in values and in failure) with `getIntervalRatio` of the derived
base symbol `a ++ (((d-1) mod 7)+1)` multiplied by `2^((d-1) div 7)`;
concretely `getIntervalRatio "9" = getIntervalRatio "2" * 2` and
`getIntervalRatio "15" = 4`. -/
theorem C4_compound_ratio :
    (∀ (s accidental : String) (d : ℕ),
      jsTrim s = s →
      matchIntervalRegex s = some (accidental, d) →
      8 < d →
      (getIntervalRatio s).toOption =
        (getIntervalRatio (accidental ++ toString (((d - 1) % 7) + 1))).toOption.map
          (fun q => q * 2 ^ ((d - 1) / 7)))
    ∧ getIntervalRatio "9" = Except.map (fun q => q * 2) (getIntervalRatio "2")
    ∧ getIntervalRatio "15" = .ok 4 := by
  refine ⟨?_, ?_, ?_⟩
  · intro s accidental d htrim hm hd
    rw [getIntervalRatio_compound s accidental d htrim hm hd]
    obtain ⟨b, hbdef, hb1, hb7⟩ : ∃ b, ((d - 1) % 7) + 1 = b ∧ 1 ≤ b ∧ b ≤ 7 :=
      ⟨_, rfl, by omega, by omega⟩
    rw [hbdef]
    rcases matchIntervalRegex_accidental s accidental d hm with rfl | rfl | rfl <;>
      interval_cases b
    all_goals rw [getIntervalRatio_simple _ (by decide) (by decide)]
    all_goals cases tableLookup pythIntervals _ <;> simp [Except.toOption]
  · simp [getIntervalRatio, tableLookup, pythIntervals, jsTrim, jsTrimList, isJsSpace,
      matchIntervalRegex, parseDigits, digitsToNat, digitVal, natToString_two, Except.map]
  · simp [getIntervalRatio, tableLookup, pythIntervals, jsTrim, jsTrimList, isJsSpace,
      matchIntervalRegex, parseDigits, digitsToNat, digitVal, natToString_one]
    norm_num

/-- Witness for `C4_compound_ratio` at the concrete symbol `"#11"`. -/
theorem C4_compound_ratio_witness :
    jsTrim "#11" = "#11" ∧ matchIntervalRegex "#11" = some ("#", 11) ∧ 8 < 11 ∧
    (getIntervalRatio "#11").toOption =
      (getIntervalRatio ("#" ++ toString (((11 - 1) % 7) + 1))).toOption.map
        (fun q => q * 2 ^ ((11 - 1) / 7)) :=
  ⟨by decide, by decide, by decide,
   C4_compound_ratio.1 "#11" "#" 11 (by decide) (by decide) (by decide)⟩

/-! ## C7: fundamental resolution in `calculateChord` -/

/-- `getIntervalRatio` never throws the `Invalid fundamental` error. -/
theorem getIntervalRatio_ne_invalidFundamental (interval t : String) :
    getIntervalRatio interval ≠ .error (.invalidFundamental t) := by
  intro h
  simp only [getIntervalRatio] at h
  split at h
  · exact Except.noConfusion h
  · split at h
    · simp at h
    · split_ifs at h with h8
      · simp at h
      · split at h <;> simp at h

/-- `resolveFundamental` fails exactly when the note-name parse fails and
`parseFloat` yields `NaN`, and then with the `Invalid fundamental` error. -/
theorem resolveFundamental_error_iff (s : String) (e : TuneError) :
    resolveFundamental s = .error e ↔
      e = .invalidFundamental s ∧ (noteTotalSemitones s).isOk = false ∧
        jsParseFloat s = .nan := by
  unfold resolveFundamental
  cases hns : noteTotalSemitones s with
  | ok t => simp [Except.isOk, Except.toBool]
  | error e2 =>
    cases hpf : jsParseFloat s <;>
      simp [Except.isOk, Except.toBool, eq_comm]

/-- A failing `mapChordNotes` pinpoints a failing `getIntervalRatio`. -/
theorem mapChordNotes_error (fund : EReal) (l : List String) (e : TuneError)
    (h : mapChordNotes fund l = .error e) : ∃ i ∈ l, getIntervalRatio i = .error e := by
  induction l with
  | nil => simp [mapChordNotes] at h
  | cons x xs ih =>
    simp only [mapChordNotes] at h
    cases hcf : calculateFrequency fund x with
    | error e2 =>
      rw [hcf] at h
      injection h with he
      subst he
      refine ⟨x, by simp, ?_⟩
      cases hg : getIntervalRatio x with
      | ok r => simp [calculateFrequency, hg, Except.map] at hcf
      | error e3 =>
        simp [calculateFrequency, hg, Except.map] at hcf
        rw [hcf]
    | ok freq =>
      rw [hcf] at h
      cases hg : getIntervalRatio x with
      | error e2 =>
        rw [hg] at h
        injection h with he
        subst he
        exact ⟨x, by simp, hg⟩
      | ok r =>
        rw [hg] at h
        cases hrec : mapChordNotes fund xs with
        | error e2 =>
          rw [hrec] at h
          simp [Except.map] at h
          subst h
          obtain ⟨a, ha, hga⟩ := ih hrec
          exact ⟨a, by simp [ha], hga⟩
        | ok notes => rw [hrec] at h; simp [Except.map] at h

/-- **C7 (amended)** — `calculateChord` resolves a string fundamental by
first attempting the note-name parse and falling back to `parseFloat`; it
fails with the `Invalid fundamental` error if and only if the note-name
parse fails and `parseFloat` returns `NaN` (no positivity check is made on
the parsed number). -/
theorem C7_invalid_fundamental_iff (fundamental : String) (intervals : List String) :
    calculateChord fundamental intervals = .error (.invalidFundamental fundamental) ↔
      (noteTotalSemitones fundamental).isOk = false ∧
        jsParseFloat fundamental = .nan := by
  constructor
  · intro h
    unfold calculateChord at h
    cases hres : resolveFundamental fundamental with
    | error e =>
      exact ((resolveFundamental_error_iff fundamental e).mp hres).2
    | ok v =>
      simp only [hres] at h
      exfalso
      cases hmap : mapChordNotes v intervals with
      | ok notes => simp only [hmap] at h; exact Except.noConfusion h
      | error e =>
        simp only [hmap] at h
        injection h with he
        subst he
        obtain ⟨a, _, ha⟩ := mapChordNotes_error v intervals _ hmap
        exact getIntervalRatio_ne_invalidFundamental a fundamental ha
  · rintro ⟨h1, h2⟩
    have hres : resolveFundamental fundamental = .error (.invalidFundamental fundamental) :=
      (resolveFundamental_error_iff fundamental _).mpr ⟨rfl, h1, h2⟩
    unfold calculateChord
    rw [hres]

/-- **C7 (counterexample)** — `"-5"` is neither a note name nor a positive
literal frequency (the spec's notion of a literal frequency), yet
`calculateChord` succeeds on it: the code accepts any `parseFloat` value
that is not `NaN`, with no positivity check. -/
theorem C7_counterexample :
    (noteTotalSemitones "-5").isOk = false ∧
    specLiteralFrequency "-5" = none ∧
    (calculateChord "-5" ["1"]).isOk = true := by
  have hpf : jsParseFloat "-5" = .num (-5) := by
    simp [jsParseFloat, jsParseFloatExponent, isJsSpace, parseDigits, digitsToNat, digitVal]
  have hns : noteTotalSemitones "-5" = .error (.invalidNoteFormat "-5") := by decide
  have hone : getIntervalRatio "1" = .ok (1/1) := by
    simp [getIntervalRatio, tableLookup, pythIntervals, jsTrim, jsTrimList, isJsSpace]
  refine ⟨by decide, ?_, ?_⟩
  · simp only [specLiteralFrequency, hpf]
    norm_num
  · simp [calculateChord, resolveFundamental, hns, hpf, mapChordNotes,
      calculateFrequency, hone, Except.map, Except.isOk, Except.toBool]

/-! ## C8: chord-line part collection -/

/-- A successful `processParts` run collects exactly the non-duration,
non-empty parts, in order, appended to the accumulator. -/
theorem processParts_ok_fst (parts : List String) :
    ∀ (intervals : List String) (dur : ℚ) (res : List String × ℚ),
      processParts parts intervals dur = .ok res →
      res.1 = intervals ++ parts.filter (fun p => !isDurationPart p && p != "") := by
  induction parts with
  | nil =>
    intro intervals dur res h
    simp only [processParts] at h
    injection h with h
    simp [← h]
  | cons p rest ih =>
    intro intervals dur res h
    simp only [processParts] at h
    by_cases hd : isDurationPart p
    · rw [if_pos hd] at h
      cases hs : searchDuration p.toList with
      | none => simp only [hs] at h; exact Except.noConfusion h
      | some ds =>
        simp only [hs] at h
        cases hv : parseFloatDigitsDots ds with
        | none => simp only [hv] at h; exact Except.noConfusion h
        | some v =>
          simp only [hv] at h
          split_ifs at h with hle
          rw [ih intervals v res h]
          simp [List.filter_cons, hd]
    · rw [if_neg hd] at h
      by_cases he : p = ""
      · rw [if_pos he] at h
        rw [ih intervals dur res h]
        simp [List.filter_cons, hd, he]
      · rw [if_neg he] at h
        rw [ih (intervals ++ [p]) dur res h]
        simp [List.filter_cons, hd, he]

/-- A run over parts containing no duration keyword succeeds and leaves the
duration untouched. -/
theorem processParts_no_duration (parts : List String) :
    ∀ (intervals : List String) (dur : ℚ),
      (∀ p ∈ parts, isDurationPart p = false) →
      processParts parts intervals dur =
        .ok (intervals ++ parts.filter (fun q => q != ""), dur) := by
  induction parts with
  | nil => intro intervals dur _; simp [processParts]
  | cons p rest ih =>
    intro intervals dur h
    have hp : isDurationPart p = false := h p (by simp)
    have hrest : ∀ q ∈ rest, isDurationPart q = false := fun q hq => h q (by simp [hq])
    simp only [processParts, hp, Bool.false_eq_true, if_false]
    by_cases he : p = ""
    · rw [if_pos he, ih intervals dur hrest]
      simp [List.filter_cons, he]
    · rw [if_neg he, ih (intervals ++ [p]) dur hrest]
      simp [List.filter_cons, he]

/-- Splitting a `processParts` run at a list append. -/
theorem processParts_append (l1 l2 : List String) :
    ∀ (intervals : List String) (dur : ℚ),
      processParts (l1 ++ l2) intervals dur =
        match processParts l1 intervals dur with
        | .error e => .error e
        | .ok (i2, d2) => processParts l2 i2 d2 := by
  induction l1 with
  | nil => intro intervals dur; simp [processParts]
  | cons p rest ih =>
    intro intervals dur
    simp only [List.cons_append, processParts]
    by_cases hd : isDurationPart p
    · rw [if_pos hd, if_pos hd]
      cases hs : searchDuration p.toList with
      | none => simp
      | some ds =>
        cases hv : parseFloatDigitsDots ds with
        | none => simp [hv]
        | some v =>
          simp only [hv]
          split_ifs with hle
          · simp
          · exact ih _ _
    · rw [if_neg hd, if_neg hd]
      by_cases he : p = ""
      · rw [if_pos he, if_pos he]; exact ih _ _
      · rw [if_neg he, if_neg he]; exact ih _ _

/-- **C8 (confirmed)** — `parseChordLine "C4: 1,3,5, duration=2"` yields
fundamental `"C4"`, intervals `["1","3","5"]` and duration `2`; the
duration defaults to `1` when no duration part is present; the duration
keyword is recognised anywhere among the comma-separated parts; and all
non-duration, non-empty parts are collected as intervals in written order,
with no reordering and no deduplication. -/
theorem C8_parse_chord_line :
    parseChordLine "C4: 1,3,5, duration=2" =
      .ok (some ⟨"C4", ["1", "3", "5"], 2⟩)
    ∧ (∀ (parts intervals : List String) (dur : ℚ) (res : List String × ℚ),
        processParts parts intervals dur = .ok res →
        res.1 = intervals ++ parts.filter (fun p => !isDurationPart p && p != ""))
    ∧ (∀ (parts : List String) (dur : ℚ),
        (∀ p ∈ parts, isDurationPart p = false) →
        processParts parts [] dur = .ok (parts.filter (fun q => q != ""), dur))
    ∧ (∀ (pre post : List String) (p : String) (ds : List Char) (v : ℚ),
        (∀ q ∈ pre ++ post, isDurationPart q = false) →
        isDurationPart p = true →
        searchDuration p.toList = some ds →
        parseFloatDigitsDots ds = some v →
        0 < v →
        processParts (pre ++ p :: post) [] 1 =
          .ok ((pre ++ post).filter (fun q => q != ""), v)) := by
  refine ⟨by decide, processParts_ok_fst, ?_, ?_⟩
  · intro parts dur h
    simpa using processParts_no_duration parts [] dur h
  · intro pre post p ds v hq hd hs hv hpos
    have hpre : ∀ q ∈ pre, isDurationPart q = false := fun q h => hq q (by simp [h])
    have hpost : ∀ q ∈ post, isDurationPart q = false := fun q h => hq q (by simp [h])
    rw [processParts_append pre (p :: post) [] 1,
      processParts_no_duration pre [] 1 hpre]
    simp only [processParts, hd, if_pos, hs, hv]
    rw [if_neg (by exact not_le.mpr hpos)]
    rw [processParts_no_duration post _ v hpost]
    simp [List.filter_append]

/-- Witness for `C8_parse_chord_line`: the no-duration conjunct at the
parts of `"A3: 1,b3,5"`. -/
theorem C8_parse_chord_line_witness :
    (∀ p ∈ ["1", "b3", "5"], isDurationPart p = false) ∧
    processParts ["1", "b3", "5"] [] 1 =
      .ok (List.filter (fun q => q != "") ["1", "b3", "5"], 1) :=
  ⟨by decide, C8_parse_chord_line.2.2.1 ["1", "b3", "5"] 1 (by decide)⟩

/-! ## C3: sequence-level error reporting -/

/-- `splitAtColonList` fails exactly when there is no colon. -/
theorem splitAtColonList_eq_none_iff (l : List Char) :
    splitAtColonList l = none ↔ ':' ∉ l := by
  induction l with
  | nil => simp [splitAtColonList]
  | cons c cs ih =>
    by_cases hc : c = ':'
    · subst hc; simp [splitAtColonList]
    · simp [splitAtColonList, hc, ih]
      exact fun _ h => hc h.symm

/-- `parseLinesFrom` only fails with line-tagged errors. -/
theorem parseLinesFrom_error_shape (ls : List String) :
    ∀ (k : ℕ) (es : SeqError), parseLinesFrom ls k = .error es →
      ∃ n e, es = .atLine n e := by
  induction ls with
  | nil => intro k es h; simp [parseLinesFrom] at h
  | cons l ls ih =>
    intro k es h
    simp only [parseLinesFrom] at h
    cases hl : parseChordLine l with
    | error e => simp only [hl] at h; exact ⟨k, e, by injection h with h; rw [← h]⟩
    | ok r =>
      simp only [hl] at h
      cases r with
      | none => exact ih (k + 1) es h
      | some c =>
        cases hr : parseLinesFrom ls (k + 1) with
        | error e2 =>
          simp only [hr, Except.map] at h
          injection h with h
          rw [← h]
          exact ih (k + 1) e2 hr
        | ok cs => simp [hr, Except.map] at h

/-- `parseLinesFrom` yields the empty chord list iff every line is blank or
a comment. -/
theorem parseLinesFrom_ok_nil_iff (ls : List String) :
    ∀ k : ℕ, parseLinesFrom ls k = .ok [] ↔
      ∀ l ∈ ls, parseChordLine l = .ok none := by
  induction ls with
  | nil => intro k; simp [parseLinesFrom]
  | cons l ls ih =>
    intro k
    simp only [parseLinesFrom]
    cases hl : parseChordLine l with
    | error e => simp [hl]
    | ok r =>
      cases r with
      | none => simp [hl, ih (k + 1)]
      | some c =>
        cases hr : parseLinesFrom ls (k + 1) with
        | error e2 => simp [hl, hr, Except.map]
        | ok cs => simp [hl, hr, Except.map]

/-- A failure of `parseLinesFrom` is located at the first failing line. -/
theorem parseLinesFrom_error_spec (ls : List String) :
    ∀ (k n : ℕ) (e : LineError), parseLinesFrom ls k = .error (.atLine n e) →
      ∃ i, i < ls.length ∧ n = k + i ∧
        parseChordLine (ls.getD i "") = .error e ∧
        ∀ j < i, ∃ r, parseChordLine (ls.getD j "") = .ok r := by
  induction ls with
  | nil => intro k n e h; simp [parseLinesFrom] at h
  | cons l ls ih =>
    intro k n e h
    simp only [parseLinesFrom] at h
    cases hl : parseChordLine l with
    | error e2 =>
      simp only [hl] at h
      injection h with h
      injection h with h1 h2
      refine ⟨0, by simp, by omega, ?_, fun j hj => absurd hj (by omega)⟩
      rw [List.getD_cons_zero, hl, h2]
    | ok r =>
      simp only [hl] at h
      have hrec : parseLinesFrom ls (k + 1) = .error (.atLine n e) := by
        cases r with
        | none => exact h
        | some c =>
          cases hr : parseLinesFrom ls (k + 1) with
          | error e2 =>
            simp only [hr, Except.map] at h
            exact h
          | ok cs => simp [hr, Except.map] at h
      obtain ⟨i, hi, hn, hbad, hprev⟩ := ih (k + 1) n e hrec
      refine ⟨i + 1, by simpa using hi, by omega, by simpa using hbad, ?_⟩
      intro j hj
      cases j with
      | zero => exact ⟨r, by simpa using hl⟩
      | succ j2 => simpa using hprev j2 (by omega)

/-- Conversely, if every line before `i` parses and line `i` fails, the
whole run fails with that error tagged `k + i`. -/
theorem parseLinesFrom_first_error (ls : List String) :
    ∀ (k i : ℕ) (e : LineError), i < ls.length →
      parseChordLine (ls.getD i "") = .error e →
      (∀ j < i, ∃ r, parseChordLine (ls.getD j "") = .ok r) →
      parseLinesFrom ls k = .error (.atLine (k + i) e) := by
  induction ls with
  | nil => intro k i e hi _ _; simp at hi
  | cons l ls ih =>
    intro k i e hi hbad hprev
    cases i with
    | zero =>
      rw [List.getD_cons_zero] at hbad
      simp [parseLinesFrom, hbad]
    | succ i2 =>
      obtain ⟨r, hr⟩ := hprev 0 (by omega)
      rw [List.getD_cons_zero] at hr
      simp only [parseLinesFrom, hr]
      have hrec := ih (k + 1) i2 e (by simpa using hi) (by simpa using hbad)
        (fun j hj => by simpa using hprev (j + 1) (by omega))
      have hshift : k + 1 + i2 = k + (i2 + 1) := by omega
      rw [hshift] at hrec
      cases r with
      | none => exact hrec
      | some c => rw [hrec]; simp [Except.map]

/-- **C3 (confirmed)** — `parseChordSequence` fails fast on the first
offending line, tagging the error with that line's 1-based number (and
conversely); blank lines and `#`/`//` comment lines produce no chord; a
non-comment line with no colon fails with the missing-colon error; a
duration value that is not-a-number or `≤ 0` fails the line; a non-comment
line whose parts yield no intervals fails with the no-intervals error; and
an input all of whose lines yield no chord fails with the empty-sequence
error. -/
theorem C3_sequence_errors (input : String) :
    (∀ (n : ℕ) (e : LineError),
      parseChordSequence input = .error (.atLine n e) →
      ∃ i, i < (jsSplitLines input).length ∧ n = i + 1 ∧
        parseChordLine ((jsSplitLines input).getD i "") = .error e ∧
        ∀ j < i, ∃ r, parseChordLine ((jsSplitLines input).getD j "") = .ok r)
    ∧ (∀ (i : ℕ) (e : LineError), i < (jsSplitLines input).length →
        parseChordLine ((jsSplitLines input).getD i "") = .error e →
        (∀ j < i, ∃ r, parseChordLine ((jsSplitLines input).getD j "") = .ok r) →
        parseChordSequence input = .error (.atLine (i + 1) e))
    ∧ (parseChordSequence input = .error .noChords ↔
        ∀ l ∈ jsSplitLines input, parseChordLine l = .ok none)
    ∧ (∀ line : String,
        jsTrim line = "" ∨ strStartsWith (jsTrim line) "#" = true ∨
          strStartsWith (jsTrim line) "//" = true →
        parseChordLine line = .ok none)
    ∧ (∀ line : String, jsTrim line ≠ "" →
        strStartsWith (jsTrim line) "#" = false →
        strStartsWith (jsTrim line) "//" = false →
        ':' ∉ (jsTrim line).toList →
        parseChordLine line = .error .missingColon)
    ∧ (∀ (part : String) (rest intervals : List String) (dur : ℚ) (ds : List Char),
        isDurationPart part = true →
        searchDuration part.toList = some ds →
        (parseFloatDigitsDots ds = none ∨ ∃ v, parseFloatDigitsDots ds = some v ∧ v ≤ 0) →
        processParts (part :: rest) intervals dur =
          .error (.invalidDurationValue (String.mk ds)))
    ∧ (∀ (line beforeColon afterColon : String) (d : ℚ),
        jsTrim line ≠ "" →
        strStartsWith (jsTrim line) "#" = false →
        strStartsWith (jsTrim line) "//" = false →
        splitAtColon (jsTrim line) = some (beforeColon, afterColon) →
        processParts
          ((splitOnChar ',' (jsTrim afterColon).toList).map (fun l => jsTrim (String.mk l)))
          [] 1 = .ok ([], d) →
        parseChordLine line = .error (.noIntervals (jsTrim beforeColon))) := by
  refine ⟨?_, ?_, ?_, ?_, ?_, ?_, ?_⟩
  · intro n e h
    have hseq : parseLinesFrom (jsSplitLines input) 1 = .error (.atLine n e) := by
      unfold parseChordSequence at h
      cases hp : parseLinesFrom (jsSplitLines input) 1 with
      | error e2 =>
        simp only [hp] at h
        exact h
      | ok cs =>
        exfalso
        simp only [hp] at h
        split_ifs at h with hnil
        all_goals first
          | exact Except.noConfusion h
          | (injection h with h; exact SeqError.noConfusion h)
    obtain ⟨i, hi, hn, hbad, hprev⟩ := parseLinesFrom_error_spec _ 1 n e hseq
    exact ⟨i, hi, by omega, hbad, hprev⟩
  · intro i e hi hbad hprev
    have h10 := parseLinesFrom_first_error (jsSplitLines input) 1 i e hi hbad hprev
    rw [show 1 + i = i + 1 by omega] at h10
    unfold parseChordSequence
    rw [h10]
  · constructor
    · intro h
      unfold parseChordSequence at h
      cases hp : parseLinesFrom (jsSplitLines input) 1 with
      | error e2 =>
        simp only [hp] at h
        injection h with h
        obtain ⟨n, e, hne⟩ := parseLinesFrom_error_shape _ 1 e2 hp
        rw [h] at hne
        exact SeqError.noConfusion hne
      | ok cs =>
        simp only [hp] at h
        split_ifs at h with hnil
        all_goals first
          | exact Except.noConfusion h
          | (subst hnil; exact (parseLinesFrom_ok_nil_iff _ 1).mp hp)
    · intro h
      have := (parseLinesFrom_ok_nil_iff (jsSplitLines input) 1).mpr h
      unfold parseChordSequence
      rw [this]
      simp
  · intro line hcase
    unfold parseChordLine
    rcases hcase with h | h | h <;> simp [h]
  · intro line h1 h2 h3 h4
    have hsplit : splitAtColon (jsTrim line) = none := by
      unfold splitAtColon
      rw [(splitAtColonList_eq_none_iff _).mpr h4]
      rfl
    unfold parseChordLine
    simp [h1, h2, h3, hsplit]
  · intro part rest intervals dur ds hdur hsearch hbad
    simp only [processParts, hdur, if_pos, hsearch]
    rcases hbad with h | ⟨v, hv, hle⟩
    · simp [h]
    · simp only [hv]
      rw [if_pos hle]
  · intro line beforeColon afterColon d h1 h2 h3 hsplit hproc
    have hproc2 : processParts
        ((splitOnChar ',' (jsTrim afterColon).data).map (fun l => jsTrim (String.mk l)))
        [] 1 = .ok ([], d) := hproc
    unfold parseChordLine
    simp [h1, h2, h3, hsplit, hproc2]

/-- Witness for `C3_sequence_errors`: the comment conjunct at `"# comment"`
and the fail-fast conjunct on the one-line input `"C4 1,3,5"`. -/
theorem C3_sequence_errors_witness :
    (jsTrim "# comment" = "" ∨ strStartsWith (jsTrim "# comment") "#" = true ∨
      strStartsWith (jsTrim "# comment") "//" = true) ∧
    parseChordLine "# comment" = .ok none :=
  ⟨by decide, (C3_sequence_errors "").2.2.2.1 "# comment" (by decide)⟩

/-! ## C6: MIDI file layout -/

theorem toInt32_eq_self (z : ℤ) (h0 : 0 ≤ z) (h31 : z < 2 ^ 31) : toInt32 z = z := by
  unfold toInt32
  omega

theorem vlqHigh_zero : vlqHigh 0 = [] := by
  unfold vlqHigh
  simp

theorem writeVarLength_zero : writeVarLength 0 = [0] := by
  have h : toInt32 0 = 0 := toInt32_eq_self 0 le_rfl (by norm_num)
  unfold writeVarLength
  rw [h]
  norm_num [vlqHigh_zero]

/-- Appending an event appends its encoding. -/
theorem encodeTrackEvents_append (es : List MIDIEvent) (e : MIDIEvent) :
    encodeTrackEvents (es ++ [e]) =
      encodeTrackEvents es ++
        (writeVarLength e.deltaTime ++ e.data).map (fun z => (z % 256).toNat) := by
  simp [encodeTrackEvents]

/-- Every track that ends with the end-of-track event encodes to a byte
stream ending in `FF 2F 00`. -/
theorem encodeTrackEvents_eot_suffix (es : List MIDIEvent) :
    [0xFF, 0x2F, 0x00] <:+ encodeTrackEvents (es ++ [endOfTrackEvent]) := by
  rw [encodeTrackEvents_append]
  refine ⟨encodeTrackEvents es ++ [0], ?_⟩
  simp [endOfTrackEvent, writeVarLength_zero]

/-- The byte stream of track 0 under the representability hypothesis. -/
theorem encodeTrackEvents_tempoTrack (tempo : ℚ)
    (h0 : 0 ≤ microsecondsPerBeat tempo) (h24 : microsecondsPerBeat tempo < 2 ^ 24) :
    encodeTrackEvents (tempoTrack tempo) =
      [0x00, 0xFF, 0x51, 0x03,
       (microsecondsPerBeat tempo).toNat / 65536,
       (microsecondsPerBeat tempo).toNat / 256 % 256,
       (microsecondsPerBeat tempo).toNat % 256,
       0x00, 0xFF, 0x2F, 0x00] := by
  have ht : toInt32 (microsecondsPerBeat tempo) = microsecondsPerBeat tempo :=
    toInt32_eq_self _ h0 (by omega)
  simp only [tempoTrack, tempoMetaEvent, endOfTrackEvent, encodeTrackEvents,
    List.map_cons, List.map_nil, List.flatten, writeVarLength_zero, ht,
    List.append_nil, List.nil_append, List.cons_append, List.map_append]
  norm_num
  omega

/-- **C6 (amended)** — every buffer produced by `generatePythagoreanMIDI`
begins with the fixed header bytes `4D 54 68 64 00 00 00 06 00 01`, the
track count `00 02` and the division `01 E0`; the buffer is the header
followed by exactly two `MTrk` chunks (each `4D 54 72 6B`, a 4-byte
big-endian data length, then the data); both track data streams end with
`FF 2F 00`; and, whenever `round(60000000/tempo)` is representable in
3 bytes (`0 ≤ m < 2^24`), track 0's data is exactly a delta time `00`, the
tempo meta event `FF 51 03` with the 3-byte big-endian value `m`, a delta
time `00`, and the end-of-track `FF 2F 00`. -/
theorem C6_midi_file_layout (chords : List MidiChordInput) (baseDuration tempo : ℚ) :
    (generatePythagoreanMIDI chords baseDuration tempo).take 14 =
      [0x4D, 0x54, 0x68, 0x64, 0x00, 0x00, 0x00, 0x06, 0x00, 0x01, 0x00, 0x02, 0x01, 0xE0]
    ∧ generatePythagoreanMIDI chords baseDuration tempo =
        createHeaderChunk 2 ++
        ([0x4D, 0x54, 0x72, 0x6B] ++
          uint32BE (encodeTrackEvents (tempoTrack tempo)).length ++
          encodeTrackEvents (tempoTrack tempo)) ++
        ([0x4D, 0x54, 0x72, 0x6B] ++
          uint32BE (encodeTrackEvents (pythNoteTrack chords baseDuration tempo)).length ++
          encodeTrackEvents (pythNoteTrack chords baseDuration tempo))
    ∧ [0xFF, 0x2F, 0x00] <:+ encodeTrackEvents (tempoTrack tempo)
    ∧ [0xFF, 0x2F, 0x00] <:+ encodeTrackEvents (pythNoteTrack chords baseDuration tempo)
    ∧ (0 ≤ microsecondsPerBeat tempo → microsecondsPerBeat tempo < 2 ^ 24 →
        encodeTrackEvents (tempoTrack tempo) =
          [0x00, 0xFF, 0x51, 0x03,
           (microsecondsPerBeat tempo).toNat / 65536,
           (microsecondsPerBeat tempo).toNat / 256 % 256,
           (microsecondsPerBeat tempo).toNat % 256,
           0x00, 0xFF, 0x2F, 0x00]) := by
  refine ⟨?_, ?_, ?_, ?_, encodeTrackEvents_tempoTrack tempo⟩
  · have hfile : generatePythagoreanMIDI chords baseDuration tempo =
        createHeaderChunk 2 ++
          (createTrackChunk (tempoTrack tempo) ++
            (createTrackChunk (pythNoteTrack chords baseDuration tempo) ++ [])) := by
      simp [generatePythagoreanMIDI, createMIDIFile]
    rw [hfile]
    rw [show (14 : ℕ) = (createHeaderChunk 2).length from by decide]
    rw [List.take_left]
    decide
  · simp [generatePythagoreanMIDI, createMIDIFile, createTrackChunk]
  · exact encodeTrackEvents_eot_suffix [tempoMetaEvent tempo]
  · exact encodeTrackEvents_eot_suffix _

/-- **C6 (counterexample)** — at `tempo = 1` BPM, `round(60000000/tempo)
= 60000000 ≥ 2^24`: the three emitted tempo bytes are `93 87 00`, which
big-endian-decode to `9668352`, not to `60000000` — the produced track 0
does not carry "the 3-byte big-endian value `round(60000000/tempo)`". -/
theorem C6_counterexample :
    microsecondsPerBeat 1 = 60000000 ∧
    encodeTrackEvents (tempoTrack 1) =
      [0x00, 0xFF, 0x51, 0x03, 0x93, 0x87, 0x00, 0x00, 0xFF, 0x2F, 0x00] ∧
    (0x93 * 65536 + 0x87 * 256 + 0x00 : ℕ) ≠ 60000000 := by
  have hm : microsecondsPerBeat 1 = 60000000 := by
    unfold microsecondsPerBeat
    rw [show ((60000000 : ℚ) / 1) = ((60000000 : ℤ) : ℚ) by norm_num, round_intCast]
  have ht : toInt32 60000000 = 60000000 := toInt32_eq_self _ (by norm_num) (by norm_num)
  refine ⟨hm, ?_, by norm_num⟩
  simp only [tempoTrack, tempoMetaEvent, endOfTrackEvent, encodeTrackEvents,
    List.map_cons, List.map_nil, List.flatten, writeVarLength_zero, hm, ht,
    List.append_nil, List.nil_append, List.cons_append, List.map_append]
  norm_num
  decide

/-- Witness for `C6_midi_file_layout` at `tempo = 120`. -/
theorem C6_midi_file_layout_witness :
    0 ≤ microsecondsPerBeat 120 ∧ microsecondsPerBeat 120 < 2 ^ 24 ∧
    encodeTrackEvents (tempoTrack 120) =
      [0x00, 0xFF, 0x51, 0x03,
       (microsecondsPerBeat 120).toNat / 65536,
       (microsecondsPerBeat 120).toNat / 256 % 256,
       (microsecondsPerBeat 120).toNat % 256,
       0x00, 0xFF, 0x2F, 0x00] := by
  have hm : microsecondsPerBeat 120 = 500000 := by
    unfold microsecondsPerBeat
    rw [show ((60000000 : ℚ) / 120) = ((500000 : ℤ) : ℚ) by norm_num, round_intCast]
  refine ⟨by rw [hm]; norm_num, by rw [hm]; norm_num, ?_⟩
  exact (C6_midi_file_layout [] 1 120).2.2.2.2 (by rw [hm]; norm_num) (by rw [hm]; norm_num)

/-! ## C2: per-chord event layout -/

/-- Evaluation of `frequencyToMIDI` at A4 = 440 Hz: note 69, zero cents. -/
theorem frequencyToMIDI_440 : frequencyToMIDI 440 = (69, 0) := by
  simp only [frequencyToMIDI]
  rw [show (440 : ℝ) / 440 = 1 by norm_num, Real.logb_one]
  rw [show (69 : ℝ) + 12 * 0 = ((69 : ℤ) : ℝ) by norm_num, round_intCast]
  norm_num

/-- All note-off events after the first in a chord carry delta time 0. -/
theorem noteOff_deltas_enumFrom (dt : ℤ) (l : List ℝ) :
    ∀ k : ℕ, 0 < k →
      ((l.enumFrom k).map (fun p => pythNoteOffEvent p.1 p.2 dt)).map MIDIEvent.deltaTime =
        List.replicate l.length 0 := by
  induction l with
  | nil => intro k _; simp
  | cons x xs ih =>
    intro k hk
    rw [List.enumFrom_cons]
    simp only [List.map_cons]
    rw [ih (k + 1) (by omega)]
    simp only [pythNoteOffEvent, List.length_cons, List.replicate_succ]
    rw [if_neg (by omega)]

/-- **C2 (confirmed)** — track 1 is the concatenation of the per-chord
blocks followed by end-of-track; each chord block is all its note-on events
(with their optional pitch bends) followed by all its note-off events; every
note-on-side event carries delta time 0; the `i`-th note-on is
`90|min(i,15)` with velocity 80; the chord's note-off delta times are
`round(duration·baseDuration·(480·tempo/60))` for the first note-off and 0
for all later ones, and the `i`-th note-off is `80|min(i,15)`. -/
theorem C2_chord_event_layout (chords : List MidiChordInput) (baseDuration tempo : ℚ) :
    pythNoteTrack chords baseDuration tempo =
      (chords.map (fun c => pythChordEvents c (chordDurationTicks c baseDuration tempo))).flatten
        ++ [endOfTrackEvent]
    ∧ (∀ c : MidiChordInput, chordDurationTicks c baseDuration tempo =
        round (c.duration * baseDuration * (480 * tempo / 60)))
    ∧ (∀ (c : MidiChordInput) (dt : ℤ),
        pythChordEvents c dt =
          (c.pythagoreanNotes.enum.map (fun p => pythNoteOnEvents p.1 p.2)).flatten ++
          c.pythagoreanNotes.enum.map (fun p => pythNoteOffEvent p.1 p.2 dt))
    ∧ (∀ (i : ℕ) (f : ℝ), ∀ e ∈ pythNoteOnEvents i f, e.deltaTime = 0)
    ∧ (∀ (i : ℕ) (f : ℝ),
        pythNoteOnEvents i f =
          (if 0.5 < |(frequencyToMIDI f).2| then
            [⟨0, [0xE0 + ((min i 15 : ℕ) : ℤ),
                  centsToPitchBend (frequencyToMIDI f).2 % 128,
                  centsToPitchBend (frequencyToMIDI f).2 / 128 % 128]⟩]
           else []) ++
          [⟨0, [0x90 + ((min i 15 : ℕ) : ℤ), (frequencyToMIDI f).1, 80]⟩])
    ∧ (∀ (c : MidiChordInput) (dt : ℤ),
        (c.pythagoreanNotes.enum.map (fun p => pythNoteOffEvent p.1 p.2 dt)).map
            MIDIEvent.deltaTime =
          match c.pythagoreanNotes with
          | [] => []
          | _ :: rest => dt :: List.replicate rest.length 0)
    ∧ (∀ (i : ℕ) (f : ℝ) (dt : ℤ),
        pythNoteOffEvent i f dt =
          ⟨if i = 0 then dt else 0,
           [0x80 + ((min i 15 : ℕ) : ℤ), (frequencyToMIDI f).1, 0]⟩) := by
  refine ⟨rfl, ?_, fun c dt => rfl, ?_, fun i f => rfl, ?_, fun i f dt => rfl⟩
  · intro c
    unfold chordDurationTicks ticksPerSecond ppq
    norm_num
  · intro i f e he
    simp only [pythNoteOnEvents] at he
    rw [List.mem_append] at he
    rcases he with h1 | h1
    · split_ifs at h1 with hb
      · rw [List.mem_singleton] at h1; subst h1; rfl
      · simp at h1
    · rw [List.mem_singleton] at h1; subst h1; rfl
  · intro c dt
    cases hn : c.pythagoreanNotes with
    | nil => simp [hn]
    | cons x rest =>
      rw [List.enum_cons]
      simp only [List.map_cons]
      rw [noteOff_deltas_enumFrom dt rest 1 (by omega)]
      simp [pythNoteOffEvent]

/-- Witness for `C2_chord_event_layout`: the delta-time-zero conjunct at the
note-on event of a 440 Hz note at index 3. -/
theorem C2_chord_event_layout_witness :
    (⟨0, [0x90 + ((min 3 15 : ℕ) : ℤ), (frequencyToMIDI 440).1, 80]⟩ : MIDIEvent)
      ∈ pythNoteOnEvents 3 440 ∧
    (⟨0, [0x90 + ((min 3 15 : ℕ) : ℤ), (frequencyToMIDI 440).1, 80]⟩ : MIDIEvent).deltaTime
      = 0 := by
  have hmem : (⟨0, [0x90 + ((min 3 15 : ℕ) : ℤ), (frequencyToMIDI 440).1, 80]⟩ : MIDIEvent)
      ∈ pythNoteOnEvents 3 440 := by
    have h5 := (C2_chord_event_layout [] 1 120).2.2.2.2.1 3 440
    rw [h5, if_neg (by rw [frequencyToMIDI_440]; norm_num)]
    simp
  exact ⟨hmem, (C2_chord_event_layout [] 1 120).2.2.2.1 3 440 _ hmem⟩

/-! ## C5: pitch-bend emission -/

/-- **C5 (confirmed)** — `centsToPitchBend` is
`round(8192 + cents/200·8192)` clamped to `[0, 16383]`, and a note's event
block contains a pitch-bend event (status `E0|channel`, placed immediately
before its note-on) exactly when `|cents| > 0.5`; when `|cents| ≤ 0.5` the
block is the bare note-on, so no pitch-bend event precedes it. -/
theorem C5_pitch_bend_emission :
    (∀ cents : ℝ, centsToPitchBend cents =
      max 0 (min 16383 (round ((8192 : ℝ) + cents / 200 * 8192))))
    ∧ (∀ (i : ℕ) (f : ℝ),
        (0.5 < |(frequencyToMIDI f).2| →
          pythNoteOnEvents i f =
            [⟨0, [0xE0 + ((min i 15 : ℕ) : ℤ),
                  centsToPitchBend (frequencyToMIDI f).2 % 128,
                  centsToPitchBend (frequencyToMIDI f).2 / 128 % 128]⟩,
             ⟨0, [0x90 + ((min i 15 : ℕ) : ℤ), (frequencyToMIDI f).1, 80]⟩])
        ∧ (|(frequencyToMIDI f).2| ≤ 0.5 →
          pythNoteOnEvents i f =
            [⟨0, [0x90 + ((min i 15 : ℕ) : ℤ), (frequencyToMIDI f).1, 80]⟩])) := by
  refine ⟨fun cents => rfl, fun i f => ⟨?_, ?_⟩⟩
  · intro h
    simp only [pythNoteOnEvents]
    rw [if_pos h]
    rfl
  · intro h
    simp only [pythNoteOnEvents]
    rw [if_neg (not_lt.mpr h)]
    rfl

/-- Witness for `C5_pitch_bend_emission`: a 440 Hz note lands exactly on
MIDI note 69, so no pitch-bend event is emitted before its note-on. -/
theorem C5_pitch_bend_emission_witness :
    |(frequencyToMIDI 440).2| ≤ 0.5 ∧
    pythNoteOnEvents 0 440 =
      [⟨0, [0x90 + ((min 0 15 : ℕ) : ℤ), (frequencyToMIDI 440).1, 80]⟩] := by
  have h : |(frequencyToMIDI 440).2| ≤ 0.5 := by rw [frequencyToMIDI_440]; norm_num
  exact ⟨h, (C5_pitch_bend_emission.2 0 440).2 h⟩

/-! ## C10: pitch-bend range safety -/

/-- **C10 (confirmed)** — for every positive frequency the cents deviation
returned by `frequencyToMIDI` lies in `[-50, 50]`; consequently
`centsToPitchBend` of it lies in `[6144, 10240]`, the `[0, 16383]` clamp is
never active on encoder-produced values, and the two pitch-bend data bytes
are valid 7-bit values. -/
theorem C10_pitch_bend_safety (f : ℝ) (_hf : 0 < f) :
    -50 ≤ (frequencyToMIDI f).2 ∧ (frequencyToMIDI f).2 ≤ 50 ∧
    6144 ≤ centsToPitchBend (frequencyToMIDI f).2 ∧
    centsToPitchBend (frequencyToMIDI f).2 ≤ 10240 ∧
    centsToPitchBend (frequencyToMIDI f).2 =
      round ((8192 : ℝ) + (frequencyToMIDI f).2 / 200 * 8192) ∧
    0 ≤ centsToPitchBend (frequencyToMIDI f).2 % 128 ∧
    centsToPitchBend (frequencyToMIDI f).2 % 128 ≤ 127 ∧
    0 ≤ centsToPitchBend (frequencyToMIDI f).2 / 128 % 128 ∧
    centsToPitchBend (frequencyToMIDI f).2 / 128 % 128 ≤ 127 := by
  have habs : |(frequencyToMIDI f).2| ≤ 50 := by
    unfold frequencyToMIDI
    set m := 69 + 12 * Real.logb 2 (f / 440) with hm
    have h1 : |m - (round m : ℝ)| ≤ 1 / 2 := abs_sub_round m
    calc |(m - (round m : ℝ)) * 100| = |m - (round m : ℝ)| * 100 := by
          rw [abs_mul]; norm_num
      _ ≤ (1 / 2) * 100 := by nlinarith
      _ = 50 := by norm_num
  obtain ⟨hcl, hcu⟩ := abs_le.mp habs
  set c := (frequencyToMIDI f).2 with hc
  have hb0l : (6144 : ℝ) ≤ 8192 + c / 200 * 8192 := by linarith
  have hb0u : (8192 : ℝ) + c / 200 * 8192 ≤ 10240 := by linarith
  have hrl : (6144 : ℤ) ≤ round ((8192 : ℝ) + c / 200 * 8192) := by
    rw [round_eq]
    rw [Int.le_floor]
    push_cast
    linarith
  have hru : round ((8192 : ℝ) + c / 200 * 8192) ≤ 10240 := by
    rw [round_eq]
    have : (⌊(8192 : ℝ) + c / 200 * 8192 + 1 / 2⌋ : ℤ) < 10241 := by
      rw [Int.floor_lt]
      push_cast
      linarith
    omega
  have hcpb : centsToPitchBend c = round ((8192 : ℝ) + c / 200 * 8192) := by
    unfold centsToPitchBend
    rw [min_eq_right (by omega), max_eq_right (by omega)]
  refine ⟨hcl, hcu, by omega, by omega, hcpb, ?_, ?_, ?_, ?_⟩
  · exact Int.emod_nonneg _ (by norm_num)
  · have := Int.emod_lt_of_pos (centsToPitchBend c) (show (0:ℤ) < 128 by norm_num)
    omega
  · exact Int.emod_nonneg _ (by norm_num)
  · have := Int.emod_lt_of_pos (centsToPitchBend c / 128) (show (0:ℤ) < 128 by norm_num)
    omega

/-- Witness for `C10_pitch_bend_safety` at 440 Hz. -/
theorem C10_pitch_bend_safety_witness :
    (0 : ℝ) < 440 ∧
    (-50 ≤ (frequencyToMIDI 440).2 ∧ (frequencyToMIDI 440).2 ≤ 50 ∧
     6144 ≤ centsToPitchBend (frequencyToMIDI 440).2 ∧
     centsToPitchBend (frequencyToMIDI 440).2 ≤ 10240 ∧
     centsToPitchBend (frequencyToMIDI 440).2 =
       round ((8192 : ℝ) + (frequencyToMIDI 440).2 / 200 * 8192) ∧
     0 ≤ centsToPitchBend (frequencyToMIDI 440).2 % 128 ∧
     centsToPitchBend (frequencyToMIDI 440).2 % 128 ≤ 127 ∧
     0 ≤ centsToPitchBend (frequencyToMIDI 440).2 / 128 % 128 ∧
     centsToPitchBend (frequencyToMIDI 440).2 / 128 % 128 ≤ 127) :=
  ⟨by norm_num, C10_pitch_bend_safety 440 (by norm_num)⟩
